import Mathlib

/-!
Verification development for scripts/generate_news.py.

The file shallowly embeds the decision logic of the script: URL host
sanitisation, site-filter construction, the Brave search retry loop and
result normalisation, the OpenAI summarisation loop and content
extraction, query-variant construction, cross-run deduplication, the
per-category assembly loop of main, and seen-URL persistence.  HTTP is
modelled by scripting the outcome of each urlopen call; time.sleep is
modelled by recording the requested delays.
-/

/-- Python str.lstrip(chars): repeatedly removes leading characters that
are members of the given character set.  It does not remove a prefix
string. -/
def pyLstrip (stripSet : List Char) : List Char → List Char
  | [] => []
  | c :: rest => if c ∈ stripSet then pyLstrip stripSet rest else c :: rest

/-- The character set of the Python literal passed to lstrip in
sanitize_domain, namely the characters of "www.": w and the dot. -/
def wwwChars : List Char := ['w', '.']

/-- Characters urllib.parse allows in a URL scheme: letters, digits,
plus, minus, dot. -/
def isSchemeChar (c : Char) : Bool := c.isAlphanum || c = '+' || c = '-' || c = '.'

/-- Split a character list at its first colon, returning the parts
before and after it; none when there is no colon (urllib.parse's
url.find of the colon). -/
def splitOnColon : List Char → Option (List Char × List Char)
  | [] => none
  | c :: rest =>
    if c = ':' then some ([], rest)
    else (splitOnColon rest).map fun p => (c :: p.1, p.2)

/-- Drop a leading "scheme:" from a URL when the part before the first
colon is nonempty, starts with an ASCII letter and consists of scheme
characters, following urllib.parse.urlsplit. -/
def stripScheme (cs : List Char) : List Char :=
  match splitOnColon cs with
  | none => cs
  | some (bef, aft) =>
    match bef with
    | [] => cs
    | c :: rest => if c.isAlpha && (c :: rest).all isSchemeChar then aft else cs

/-- urllib.parse.urlparse(url).netloc: present only when the remainder
after the scheme starts with two slashes, extending to the next slash,
question mark or hash.  The control-character stripping done by recent
Python versions is omitted; no input considered here contains any. -/
def urlparseNetloc (url : String) : String :=
  match stripScheme url.toList with
  | '/' :: '/' :: rest => (rest.takeWhile fun c => !(c = '/' || c = '?' || c = '#')).asString
  | _ => ""

/-- sanitize_domain from generate_news.py:
host = urlparse(url).netloc or ""; host = host.lower().lstrip("www.");
return host or "Unknown".  Note that str.lstrip takes a character set,
not a prefix. -/
def sanitize_domain (url : String) : String :=
  let host := urlparseNetloc url
  let stripped := (pyLstrip wwwChars (host.toList.map Char.toLower)).asString
  if stripped = "" then "Unknown" else stripped

/-- The domain-accumulation loop of build_site_filter: collect, in
order, each sanitised domain that is not "Unknown" and not already
collected. -/
def collectDomains : List String → List String → List String
  | [], acc => acc
  | url :: rest, acc =>
    let d := sanitize_domain url
    if d ≠ "Unknown" ∧ ¬ d ∈ acc then collectDomains rest (acc ++ [d])
    else collectDomains rest acc

/-- build_site_filter from generate_news.py, applied to the url fields
of the configured source entries (source.get("url") or "").  Joins
site: tokens with " OR ", or yields the empty clause when no valid
domain was collected. -/
def build_site_filter (sources : List String) : String :=
  let domains := collectDomains sources []
  if domains = [] then ""
  else String.intercalate " OR " (domains.map fun d => "site:" ++ d)

/-- A normalised search item as built by brave_search. -/
structure SearchItem where
  title : String
  url : String
  description : String
  source : String
deriving DecidableEq, Repr

/-- A raw provider result; fields absent in the JSON are the empty
string, as in item.get(key) or "". -/
structure RawResult where
  title : String
  url : String
  description : String
deriving DecidableEq, Repr

/-- The normalisation loop at the end of brave_search: results missing
a title or url are silently dropped, the rest get
source = sanitize_domain(url). -/
def normalizeResults : List RawResult → List SearchItem
  | [] => []
  | r :: rest =>
    if r.title = "" ∨ r.url = "" then normalizeResults rest
    else ⟨r.title, r.url, r.description, sanitize_domain r.url⟩ :: normalizeResults rest

/-- payload.get("web", obj).get("results", nil) of a successful Brave
response: just its list of raw results. -/
structure BravePayload where
  results : List RawResult
deriving DecidableEq, Repr

/-- The outcome of one urlopen call, scripted by the environment. -/
inductive HttpResponse (α : Type) where
  | success (payload : α)
  | httpError (code : Nat) (body : String) (reason : String)
  | netError (msg : String)
deriving DecidableEq, Repr

/-- The RuntimeErrors brave_search can raise, carrying the data that
the script interpolates into their messages. -/
inductive BraveError where
  | upstream (code : Nat) (url : String) (body : String)
  | rateLimited (attempts : Nat) (url : String)
  | network (attempts : Nat) (url : String) (msg : String)
deriving DecidableEq, Repr

/-- The message strings of the corresponding RuntimeErrors. -/
def braveErrorMessage : BraveError → String
  | .upstream code url body =>
    "Brave API error " ++ toString code ++ " for " ++ url ++ ": " ++ body
  | .rateLimited attempts url =>
    "Brave API rate limited after " ++ toString attempts ++ " attempts for " ++ url
  | .network attempts url msg =>
    "Brave API network error after " ++ toString attempts ++ " attempts for " ++ url ++ ": " ++ msg

/-- The retry loop of brave_search over a scripted list of responses,
one per urlopen call.  It threads the attempts counter (incremented only
on retryable failures, as in the script), the number of urlopen calls
made, and the list of sleeps performed.  A 429 increments attempts and,
below 3 attempts, sleeps 2 * attempts and retries; at 3 attempts it
raises rate-limited.  Any other HTTP error raises at once with the body
(or, when the body is empty, the reason).  URLError and socket.timeout
behave like 429 but raise a network error on exhaustion.  The value
none means the script ran out of responses (the real environment always
answers). -/
def braveLoop (url : String) :
    List (HttpResponse BravePayload) → Nat → Nat → List Nat →
    Option (Except BraveError BravePayload × Nat × List Nat)
  | [], _, _, _ => none
  | r :: rest, attempts, calls, delays =>
    match r with
    | .success p => some (.ok p, calls + 1, delays)
    | .httpError code body reason =>
      if code ≠ 429 then
        some (.error (.upstream code url (if body = "" then reason else body)), calls + 1, delays)
      else if 3 ≤ attempts + 1 then
        some (.error (.rateLimited (attempts + 1) url), calls + 1, delays)
      else braveLoop url rest (attempts + 1) (calls + 1) (delays ++ [2 * (attempts + 1)])
    | .netError msg =>
      if 3 ≤ attempts + 1 then
        some (.error (.network (attempts + 1) url msg), calls + 1, delays)
      else braveLoop url rest (attempts + 1) (calls + 1) (delays ++ [2 * (attempts + 1)])

/-- brave_search: run the retry loop from a fresh state, then normalise
the successful payload's results. -/
def brave_search (url : String) (responses : List (HttpResponse BravePayload)) :
    Option (Except BraveError (List SearchItem) × Nat × List Nat) :=
  (braveLoop url responses 0 0 []).map fun out =>
    (out.1.map fun p => normalizeResults p.results, out.2)

/-- choices[i].get("message", obj).get("content", "") structure of an
OpenAI chat response. -/
structure OpenAIMessage where
  content : String
deriving DecidableEq, Repr

/-- One entry of the choices array. -/
structure OpenAIChoice where
  message : OpenAIMessage
deriving DecidableEq, Repr

/-- payload.get("choices", nil) of a successful OpenAI response. -/
structure OpenAIPayload where
  choices : List OpenAIChoice
deriving DecidableEq, Repr

/-- The RuntimeErrors openai_summarize can raise. -/
inductive OpenAIError where
  | upstream (code : Nat) (model : String) (body : String)
  | network (attempts : Nat) (msg : String)
  | missing (msg : String)
deriving DecidableEq, Repr

/-- The retry loop of openai_summarize: any HTTP error status raises at
once; network-class errors retry up to 2 total attempts with a fixed
sleep of 3. -/
def openaiLoop (model : String) :
    List (HttpResponse OpenAIPayload) → Nat → Nat → List Nat →
    Option (Except OpenAIError OpenAIPayload × Nat × List Nat)
  | [], _, _, _ => none
  | r :: rest, attempts, calls, delays =>
    match r with
    | .success p => some (.ok p, calls + 1, delays)
    | .httpError code body reason =>
      some (.error (.upstream code model (if body = "" then reason else body)), calls + 1, delays)
    | .netError msg =>
      if 2 ≤ attempts + 1 then
        some (.error (.network (attempts + 1) msg), calls + 1, delays)
      else openaiLoop model rest (attempts + 1) (calls + 1) (delays ++ [3])

/-- The extraction after the loop of openai_summarize: no choices or an
empty first content raise a missing-content RuntimeError; otherwise the
content is returned stripped of surrounding whitespace. -/
def openaiExtract (p : OpenAIPayload) : Except OpenAIError String :=
  match p.choices with
  | [] => .error (.missing "OpenAI response missing choices")
  | c :: _ =>
    if c.message.content = "" then .error (.missing "OpenAI response missing content")
    else .ok c.message.content.trim

/-- openai_summarize: run the retry loop from a fresh state, then
extract the content. -/
def openai_summarize (model : String) (responses : List (HttpResponse OpenAIPayload)) :
    Option (Except OpenAIError String × Nat × List Nat) :=
  (openaiLoop model responses 0 0 []).map fun out => (out.1.bind openaiExtract, out.2)

/-- build_query from generate_news.py: append the date hint as a plain
token when one is present and nonempty. -/
def build_query (base : String) (dateHint : Option String) : String :=
  match dateHint with
  | none => base
  | some d => if d = "" then base else base ++ " " ++ d

/-- dedupe_items from generate_news.py: keep, in order, the items whose
url is nonempty and not in the seen set.  The seen set is only read. -/
def dedupe_items : List SearchItem → List String → List SearchItem
  | [], _ => []
  | it :: rest, seen =>
    if it.url = "" ∨ it.url ∈ seen then dedupe_items rest seen
    else it :: dedupe_items rest seen

/-- The loop of main recording the final urls into the seen set: empty
urls are skipped, the others added when absent.  The Python set is
modelled as a duplicate-free list; additions append, but only the
membership and the collection of elements are meaningful, Python set
iteration order being unspecified. -/
def addSeen (seen : List String) : List String → List String
  | [] => seen
  | u :: rest => addSeen (if u = "" ∨ u ∈ seen then seen else seen ++ [u]) rest

/-- save_seen_urls from generate_news.py.  The argument is list(seen),
an arbitrary enumeration of the set.  The Python slice ordered[-limit:]
keeps the last limit entries of that enumeration, except that with
limit = 0 the slice is ordered[0:] and keeps everything. -/
def save_seen_urls (ordered : List String) (limit : Nat) : List String :=
  if limit < ordered.length then
    if limit = 0 then ordered else ordered.drop (ordered.length - limit)
  else ordered

/-- The per-category outcome of main's loop: the queries issued to the
search client in order, the final truncated item list (the items of the
category's SourceBundle) and the seen set after recording them. -/
structure CatResult where
  issued : List String
  final : List SearchItem
  seenAfter : List String
deriving DecidableEq, Repr

/-- One iteration of the category loop in main.  searchA and searchB
are the item lists the two brave_search calls would return; the second
is consulted only when the loop does not break after the first.  The
loop over queries extends merged with each deduplicated batch and
breaks once merged reaches max_items, so the second variant is issued
exactly when the first deduplicated batch falls short. -/
def processCategory (searchA searchB : List SearchItem)
    (shuffle : List SearchItem → List SearchItem) (maxItems : Nat)
    (dateHint : Option String) (siteFilter baseQuery : String)
    (seen : List String) : CatResult :=
  let query := if siteFilter = "" then baseQuery else baseQuery ++ " (" ++ siteFilter ++ ")"
  let fa := dedupe_items searchA seen
  let issued :=
    if maxItems ≤ fa.length then [build_query query dateHint]
    else [build_query query dateHint, query]
  let merged := if maxItems ≤ fa.length then fa else fa ++ dedupe_items searchB seen
  let final := (shuffle merged).take maxItems
  ⟨issued, final, addSeen seen (final.map SearchItem.url)⟩

/-- The loop of main over the categories, threading the seen set.  A
category is its base query together with the url fields of its
configured sources.  The search oracle gives, per category index and
query variant, the items that brave_search call returns; shuffle gives,
per category index, the permutation random.shuffle applies there. -/
def processAll (shuffle : Nat → List SearchItem → List SearchItem)
    (search : Nat → Nat → List SearchItem) (maxItems : Nat)
    (dateHint : Option String) :
    List (String × List String) → Nat → List String → List CatResult × List String
  | [], _, seen => ([], seen)
  | (q, srcs) :: rest, idx, seen =>
    let r := processCategory (search idx 0) (search idx 1) (shuffle idx) maxItems dateHint
      (build_site_filter srcs) q seen
    let out := processAll shuffle search maxItems dateHint rest (idx + 1) r.seenAfter
    (r :: out.1, out.2)

/-! ### Helper lemmas -/

lemma dedupe_eq_filter (items : List SearchItem) (seen : List String) :
    dedupe_items items seen =
      items.filter fun it => decide (it.url ≠ "" ∧ ¬ it.url ∈ seen) := by
  induction items with
  | nil => rfl
  | cons a rest ih =>
    show (if a.url = "" ∨ a.url ∈ seen then dedupe_items rest seen
      else a :: dedupe_items rest seen) = _
    by_cases h : a.url = "" ∨ a.url ∈ seen
    · have hd : ¬ ((fun it : SearchItem => decide (it.url ≠ "" ∧ ¬ it.url ∈ seen)) a = true) := by
        simp only [decide_eq_true_eq]
        tauto
      rw [if_pos h, ih,
        List.filter_cons_of_neg (p := fun it : SearchItem => decide (it.url ≠ "" ∧ ¬ it.url ∈ seen))
          (a := a) hd]
    · have hd : (fun it : SearchItem => decide (it.url ≠ "" ∧ ¬ it.url ∈ seen)) a = true := by
        simp only [decide_eq_true_eq]
        tauto
      rw [if_neg h, ih,
        List.filter_cons_of_pos (p := fun it : SearchItem => decide (it.url ≠ "" ∧ ¬ it.url ∈ seen))
          (a := a) hd]

lemma mem_dedupe_iff (it : SearchItem) (items : List SearchItem) (seen : List String) :
    it ∈ dedupe_items items seen ↔ it ∈ items ∧ it.url ≠ "" ∧ ¬ it.url ∈ seen := by
  rw [dedupe_eq_filter, List.mem_filter]
  simp

lemma dedupe_sublist (items : List SearchItem) (seen : List String) :
    List.Sublist (dedupe_items items seen) items := by
  rw [dedupe_eq_filter]
  exact List.filter_sublist _

lemma mem_addSeen_iff (urls : List String) : ∀ (seen : List String) (u : String),
    u ∈ addSeen seen urls ↔ u ∈ seen ∨ (u ∈ urls ∧ u ≠ "") := by
  induction urls with
  | nil => intro seen u; simp [addSeen]
  | cons v rest ih =>
    intro seen u
    show u ∈ addSeen (if v = "" ∨ v ∈ seen then seen else seen ++ [v]) rest ↔ _
    rw [ih]
    by_cases hv : v = "" ∨ v ∈ seen
    · rw [if_pos hv]
      constructor
      · rintro (h | h)
        · exact Or.inl h
        · exact Or.inr ⟨List.mem_cons_of_mem _ h.1, h.2⟩
      · rintro (h | ⟨hm, hne⟩)
        · exact Or.inl h
        · rcases List.mem_cons.mp hm with rfl | hm'
          · rcases hv with hv | hv
            · exact absurd hv hne
            · exact Or.inl hv
          · exact Or.inr ⟨hm', hne⟩
    · rw [if_neg hv]
      push_neg at hv
      constructor
      · rintro (h | h)
        · rcases List.mem_append.mp h with h' | h'
          · exact Or.inl h'
          · rcases List.mem_singleton.mp h' with rfl
            exact Or.inr ⟨List.mem_cons_self _ _, hv.1⟩
        · exact Or.inr ⟨List.mem_cons_of_mem _ h.1, h.2⟩
      · rintro (h | ⟨hm, hne⟩)
        · exact Or.inl (List.mem_append.mpr (Or.inl h))
        · rcases List.mem_cons.mp hm with rfl | hm'
          · exact Or.inl (List.mem_append.mpr (Or.inr (List.mem_singleton.mpr rfl)))
          · exact Or.inr ⟨hm', hne⟩

lemma processCategory_final_eq (sa sb : List SearchItem)
    (shuffle : List SearchItem → List SearchItem) (m : Nat) (d : Option String)
    (f q : String) (seen : List String) :
    (processCategory sa sb shuffle m d f q seen).final =
      (shuffle (if m ≤ (dedupe_items sa seen).length then dedupe_items sa seen
        else dedupe_items sa seen ++ dedupe_items sb seen)).take m := rfl

lemma processCategory_seenAfter_eq (sa sb : List SearchItem)
    (shuffle : List SearchItem → List SearchItem) (m : Nat) (d : Option String)
    (f q : String) (seen : List String) :
    (processCategory sa sb shuffle m d f q seen).seenAfter =
      addSeen seen ((processCategory sa sb shuffle m d f q seen).final.map SearchItem.url) := rfl

lemma processCategory_final_mem {sa sb : List SearchItem}
    {shuffle : List SearchItem → List SearchItem} {m : Nat} {d : Option String}
    {f q : String} {seen : List String} {it : SearchItem}
    (hsh : ∀ l, (shuffle l).Perm l)
    (hit : it ∈ (processCategory sa sb shuffle m d f q seen).final) :
    it.url ≠ "" ∧ ¬ it.url ∈ seen := by
  rw [processCategory_final_eq] at hit
  have h1 := (List.take_sublist _ _).subset hit
  have h2 := (hsh _).mem_iff.mp h1
  by_cases hm : m ≤ (dedupe_items sa seen).length
  · rw [if_pos hm] at h2
    exact ((mem_dedupe_iff _ _ _).mp h2).2
  · rw [if_neg hm] at h2
    rcases List.mem_append.mp h2 with h' | h'
    · exact ((mem_dedupe_iff _ _ _).mp h').2
    · exact ((mem_dedupe_iff _ _ _).mp h').2

lemma processCategory_mem_seenAfter {sa sb : List SearchItem}
    {shuffle : List SearchItem → List SearchItem} {m : Nat} {d : Option String}
    {f q : String} {seen : List String}
    (hsh : ∀ l, (shuffle l).Perm l) (u : String) :
    u ∈ (processCategory sa sb shuffle m d f q seen).seenAfter ↔
      u ∈ seen ∨ u ∈ (processCategory sa sb shuffle m d f q seen).final.map SearchItem.url := by
  rw [processCategory_seenAfter_eq, mem_addSeen_iff]
  constructor
  · rintro (h | h)
    · exact Or.inl h
    · exact Or.inr h.1
  · rintro (h | h)
    · exact Or.inl h
    · refine Or.inr ⟨h, ?_⟩
      rcases List.mem_map.mp h with ⟨it, hit, rfl⟩
      exact (processCategory_final_mem hsh hit).1

lemma processAll_cons (shuffle : Nat → List SearchItem → List SearchItem)
    (search : Nat → Nat → List SearchItem) (m : Nat) (d : Option String)
    (q : String) (srcs : List String) (rest : List (String × List String))
    (idx : Nat) (seen : List String) :
    processAll shuffle search m d ((q, srcs) :: rest) idx seen =
      (processCategory (search idx 0) (search idx 1) (shuffle idx) m d
          (build_site_filter srcs) q seen ::
        (processAll shuffle search m d rest (idx + 1)
          (processCategory (search idx 0) (search idx 1) (shuffle idx) m d
            (build_site_filter srcs) q seen).seenAfter).1,
       (processAll shuffle search m d rest (idx + 1)
         (processCategory (search idx 0) (search idx 1) (shuffle idx) m d
           (build_site_filter srcs) q seen).seenAfter).2) := rfl

lemma processAll_spec (shuffle : Nat → List SearchItem → List SearchItem)
    (search : Nat → Nat → List SearchItem) (m : Nat) (d : Option String)
    (hsh : ∀ i l, (shuffle i l).Perm l) :
    ∀ (cats : List (String × List String)) (idx : Nat) (seen : List String),
      (∀ u, u ∈ (processAll shuffle search m d cats idx seen).2 ↔
          u ∈ seen ∨ ∃ r ∈ (processAll shuffle search m d cats idx seen).1,
            u ∈ r.final.map SearchItem.url) ∧
      (∀ r ∈ (processAll shuffle search m d cats idx seen).1, ∀ it ∈ r.final,
          it.url ≠ "" ∧ ¬ it.url ∈ seen ∧
            it.url ∈ (processAll shuffle search m d cats idx seen).2) ∧
      List.Pairwise (fun r s => ∀ it ∈ r.final, ∀ it2 ∈ s.final, it.url ≠ it2.url)
        (processAll shuffle search m d cats idx seen).1 := by
  intro cats
  induction cats with
  | nil =>
    intro idx seen
    refine ⟨?_, ?_, ?_⟩ <;> simp [processAll]
  | cons c rest ih =>
    obtain ⟨q, srcs⟩ := c
    intro idx seen
    rw [processAll_cons]
    set r := processCategory (search idx 0) (search idx 1) (shuffle idx) m d
      (build_site_filter srcs) q seen with hr
    obtain ⟨ihU, ihF, ihP⟩ := ih (idx + 1) r.seenAfter
    have hseenA : ∀ u, u ∈ r.seenAfter ↔ u ∈ seen ∨ u ∈ r.final.map SearchItem.url :=
      processCategory_mem_seenAfter (hsh idx)
    refine ⟨?_, ?_, ?_⟩
    · intro u
      rw [ihU u, hseenA u]
      constructor
      · rintro ((h | h) | ⟨s, hs, hu⟩)
        · exact Or.inl h
        · exact Or.inr ⟨r, List.mem_cons_self _ _, h⟩
        · exact Or.inr ⟨s, List.mem_cons_of_mem _ hs, hu⟩
      · rintro (h | ⟨s, hs, hu⟩)
        · exact Or.inl (Or.inl h)
        · rcases List.mem_cons.mp hs with rfl | hs'
          · exact Or.inl (Or.inr hu)
          · exact Or.inr ⟨s, hs', hu⟩
    · intro s hs it hit
      rcases List.mem_cons.mp hs with rfl | hs'
      · obtain ⟨hne, hnm⟩ := processCategory_final_mem (hsh idx) hit
        refine ⟨hne, hnm, ?_⟩
        rw [ihU]
        exact Or.inl ((hseenA _).mpr (Or.inr (List.mem_map_of_mem _ hit)))
      · obtain ⟨hne, hnm, hfin⟩ := ihF s hs' it hit
        refine ⟨hne, ?_, hfin⟩
        intro hmem
        exact hnm ((hseenA _).mpr (Or.inl hmem))
    · rw [List.pairwise_cons]
      refine ⟨?_, ihP⟩
      intro s hs it hit it2 hit2
      have h1 : it.url ∈ r.seenAfter :=
        (hseenA _).mpr (Or.inr (List.mem_map_of_mem _ hit))
      have h2 : ¬ it2.url ∈ r.seenAfter := (ihF s hs it2 hit2).2.1
      intro heq
      rw [heq] at h1
      exact h2 h1

lemma collectDomains_skip {url : String} (h : sanitize_domain url = "Unknown") :
    ∀ (pre post acc : List String),
      collectDomains (pre ++ url :: post) acc = collectDomains (pre ++ post) acc := by
  intro pre
  induction pre with
  | nil =>
    intro post acc
    show collectDomains (url :: post) acc = _
    simp [collectDomains, h]
  | cons a rest ih =>
    intro post acc
    show collectDomains (a :: (rest ++ url :: post)) acc =
      collectDomains (a :: (rest ++ post)) acc
    simp only [collectDomains]
    by_cases hc : sanitize_domain a ≠ "Unknown" ∧ ¬ sanitize_domain a ∈ acc
    · rw [if_pos hc, if_pos hc]
      exact ih post _
    · rw [if_neg hc, if_neg hc]
      exact ih post _

lemma save_seen_urls_subset (ordered : List String) (limit : Nat) :
    ∀ u ∈ save_seen_urls ordered limit, u ∈ ordered := by
  intro u hu
  unfold save_seen_urls at hu
  split at hu
  · split at hu
    · exact hu
    · exact List.drop_subset _ _ hu
  · exact hu

lemma save_seen_urls_of_le (ordered : List String) (limit : Nat)
    (h : ordered.length ≤ limit) : save_seen_urls ordered limit = ordered := by
  unfold save_seen_urls
  rw [if_neg (by omega)]

lemma save_seen_urls_length_of_pos (ordered : List String) (limit : Nat)
    (h : 0 < limit) : (save_seen_urls ordered limit).length = min limit ordered.length := by
  unfold save_seen_urls
  by_cases hl : limit < ordered.length
  · rw [if_pos hl, if_neg (by omega), List.length_drop]
    omega
  · rw [if_neg hl]
    omega

/-! ### Claim theorems -/

/-- Claim C1 (amended): after a run, the threaded seen set holds exactly
the prior urls and the urls of the run's bundles; save_seen_urls,
applied to an arbitrary enumeration of that set, persists a subset of
it, persists all of it when it fits the cap, and persists exactly cap
entries when the set exceeds a positive cap.  Which entries survive
depends on the unspecified set enumeration order, and a zero cap
persists everything; there is no oldest-first guarantee. -/
theorem seen_set_after_run_union_capped
    (shuffle : Nat → List SearchItem → List SearchItem)
    (search : Nat → Nat → List SearchItem) (m : Nat) (d : Option String)
    (cats : List (String × List String)) (prior : List String)
    (enum : List String) (cap : Nat)
    (hsh : ∀ i l, (shuffle i l).Perm l)
    (henum : enum.Perm (processAll shuffle search m d cats 0 prior).2) :
    (∀ u, u ∈ (processAll shuffle search m d cats 0 prior).2 ↔
        u ∈ prior ∨ ∃ r ∈ (processAll shuffle search m d cats 0 prior).1,
          u ∈ r.final.map SearchItem.url) ∧
    (∀ u ∈ save_seen_urls enum cap, u ∈ (processAll shuffle search m d cats 0 prior).2) ∧
    ((processAll shuffle search m d cats 0 prior).2.length ≤ cap →
      save_seen_urls enum cap = enum) ∧
    (0 < cap → (save_seen_urls enum cap).length =
      min cap (processAll shuffle search m d cats 0 prior).2.length) := by
  have hlen := henum.length_eq
  refine ⟨(processAll_spec shuffle search m d hsh cats 0 prior).1, ?_, ?_, ?_⟩
  · intro u hu
    exact henum.subset (save_seen_urls_subset enum cap u hu)
  · intro hcap
    exact save_seen_urls_of_le enum cap (by omega)
  · intro hpos
    rw [save_seen_urls_length_of_pos enum cap hpos]
    omega

/-- Witness for claim C1's amended theorem: a one-category run over
empty search results with prior seen set u, enumerated as itself, cap
2. -/
theorem seen_set_after_run_union_capped_witness :
    (∀ (i : Nat) (l : List SearchItem), ((fun (_ : Nat) (l : List SearchItem) => l) i l).Perm l) ∧
    (["u"] : List String).Perm
      (processAll (fun _ l => l) (fun _ _ => []) 1 none [("q", [])] 0 ["u"]).2 ∧
    ((∀ u, u ∈ (processAll (fun _ l => l) (fun _ _ => []) 1 none [("q", [])] 0 ["u"]).2 ↔
        u ∈ ["u"] ∨ ∃ r ∈ (processAll (fun _ l => l) (fun _ _ => []) 1 none [("q", [])] 0 ["u"]).1,
          u ∈ r.final.map SearchItem.url) ∧
      (∀ u ∈ save_seen_urls ["u"] 2,
        u ∈ (processAll (fun _ l => l) (fun _ _ => []) 1 none [("q", [])] 0 ["u"]).2) ∧
      ((processAll (fun _ l => l) (fun _ _ => []) 1 none [("q", [])] 0 ["u"]).2.length ≤ 2 →
        save_seen_urls ["u"] 2 = ["u"]) ∧
      (0 < 2 → (save_seen_urls ["u"] 2).length =
        min 2 (processAll (fun _ l => l) (fun _ _ => []) 1 none [("q", [])] 0 ["u"]).2.length)) :=
  ⟨fun _ _ => List.Perm.refl _, List.Perm.refl _,
   seen_set_after_run_union_capped (fun _ l => l) (fun _ _ => []) 1 none [("q", [])]
     ["u"] ["u"] 2 (fun _ _ => List.Perm.refl _) (List.Perm.refl _)⟩

/-- Claim C1 counterexample: with prior seen set a, a run emits b (the
threaded set becomes a then b in insertion order and exceeds the cap 1),
yet list(seen) may enumerate the set as b, a — a permutation of it,
Python set iteration order being unspecified — and save_seen_urls then
persists a, the oldest entry, dropping the just-inserted b instead of
keeping it; moreover with cap 0 the slice ordered[-0:] keeps every entry
instead of none.  The last-N-inserted-survive guarantee fails on the
code. -/
theorem seen_set_last_inserted_counterexample :
    (processAll (fun _ l => l) (fun _ _ => [⟨"t", "b", "d", "s"⟩]) 5 none
      [("q", [])] 0 ["a"]).2 = ["a", "b"] ∧
    List.Perm ["b", "a"] ["a", "b"] ∧
    save_seen_urls ["b", "a"] 1 = ["a"] ∧
    save_seen_urls ["b", "a"] 1 ≠ ["b"] ∧
    save_seen_urls ["a", "b"] 0 = ["a", "b"] :=
  ⟨by decide, List.Perm.swap "a" "b" [], by decide, by decide, by decide⟩

/-- Claim C2 check: the raw result with url https://wired.com/a is kept
by the search client; its parsed host wired.com does not start with the
prefix www., so the claim says source equals that host unchanged, but
sanitize_domain (Python str.lstrip strips the character set w, dot)
produces ired.com, and that is what the stored item's source field
holds. -/
theorem sanitize_domain_lstrip_bug :
    urlparseNetloc "https://wired.com/a" = "wired.com" ∧
    "www.".toList.isPrefixOf "wired.com".toList = false ∧
    sanitize_domain "https://wired.com/a" = "ired.com" ∧
    normalizeResults [⟨"t", "https://wired.com/a", "d"⟩] =
      [⟨"t", "https://wired.com/a", "d", "ired.com"⟩] := by
  refine ⟨?_, ?_, ?_, ?_⟩ <;> decide

/-- Claim C3: two 429 responses followed by a success yield the
successful result after exactly 3 urlopen calls with sleeps of 2 then
4; three consecutive 429 responses raise the rate-limited error after 3
calls, naming the endpoint url and the attempt count 3 in its message. -/
theorem brave_search_rate_limit_retry (url b1 r1 b2 r2 b3 r3 : String) (p : BravePayload) :
    brave_search url [.httpError 429 b1 r1, .httpError 429 b2 r2, .success p] =
      some (.ok (normalizeResults p.results), 3, [2, 4]) ∧
    brave_search url [.httpError 429 b1 r1, .httpError 429 b2 r2, .httpError 429 b3 r3] =
      some (.error (.rateLimited 3 url), 3, [2, 4]) ∧
    braveErrorMessage (.rateLimited 3 url) =
      "Brave API rate limited after 3 attempts for " ++ url := by
  refine ⟨?_, ?_, ?_⟩ <;> rfl

/-- Claim C4: in a run, every item of a category's bundle has a nonempty
url absent from the prior seen set (and, the bundles being pairwise
url-disjoint, absent from the seen set at that category's filter time),
every bundle url is recorded in the seen set handed to later categories
and hence in the final one, and no url occurs in two bundles of the
same run. -/
theorem run_bundle_urls_disjoint (shuffle : Nat → List SearchItem → List SearchItem)
    (search : Nat → Nat → List SearchItem) (m : Nat) (d : Option String)
    (cats : List (String × List String)) (prior : List String)
    (hsh : ∀ i l, (shuffle i l).Perm l) :
    (∀ r ∈ (processAll shuffle search m d cats 0 prior).1, ∀ it ∈ r.final,
        it.url ≠ "" ∧ ¬ it.url ∈ prior ∧
          it.url ∈ (processAll shuffle search m d cats 0 prior).2) ∧
    List.Pairwise (fun r s => ∀ it ∈ r.final, ∀ it2 ∈ s.final, it.url ≠ it2.url)
      (processAll shuffle search m d cats 0 prior).1 :=
  ⟨(processAll_spec shuffle search m d hsh cats 0 prior).2.1,
   (processAll_spec shuffle search m d hsh cats 0 prior).2.2⟩

/-- Witness for claim C4's theorem at a concrete two-category run. -/
theorem run_bundle_urls_disjoint_witness :
    (∀ (i : Nat) (l : List SearchItem), ((fun (_ : Nat) (l : List SearchItem) => l) i l).Perm l) ∧
    ((∀ r ∈ (processAll (fun _ l => l)
          (fun i _ => if i = 0 then [⟨"t1", "u1", "d1", "s1"⟩] else [⟨"t2", "u2", "d2", "s2"⟩])
          5 none [("qa", []), ("qb", [])] 0 []).1, ∀ it ∈ r.final,
        it.url ≠ "" ∧ ¬ it.url ∈ ([] : List String) ∧
          it.url ∈ (processAll (fun _ l => l)
            (fun i _ => if i = 0 then [⟨"t1", "u1", "d1", "s1"⟩] else [⟨"t2", "u2", "d2", "s2"⟩])
            5 none [("qa", []), ("qb", [])] 0 []).2) ∧
      List.Pairwise (fun r s => ∀ it ∈ r.final, ∀ it2 ∈ s.final, it.url ≠ it2.url)
        (processAll (fun _ l => l)
          (fun i _ => if i = 0 then [⟨"t1", "u1", "d1", "s1"⟩] else [⟨"t2", "u2", "d2", "s2"⟩])
          5 none [("qa", []), ("qb", [])] 0 []).1) :=
  ⟨fun _ _ => List.Perm.refl _,
   run_bundle_urls_disjoint (fun _ l => l)
     (fun i _ => if i = 0 then [⟨"t1", "u1", "d1", "s1"⟩] else [⟨"t2", "u2", "d2", "s2"⟩])
     5 none [("qa", []), ("qb", [])] [] (fun _ _ => List.Perm.refl _)⟩

/-- Claim C5: per category, the search client is queried first with
variant (a) — the base query, the optional parenthesised site filter,
and the optional date hint appended as a plain token; variant (b), the
same query without the date hint, is issued exactly when the
deduplicated result count of variant (a) falls below the per-category
cap, its deduplicated results being appended; the merged (possibly
shuffled) list is then truncated to the cap. -/
theorem category_query_variants (sa sb : List SearchItem)
    (shuffle : List SearchItem → List SearchItem) (m : Nat) (d : Option String)
    (f q : String) (seen : List String) :
    ((processCategory sa sb shuffle m d f q seen).issued.head? =
      some (build_query (if f = "" then q else q ++ " (" ++ f ++ ")") d)) ∧
    ((dedupe_items sa seen).length < m →
      (processCategory sa sb shuffle m d f q seen).issued =
        [build_query (if f = "" then q else q ++ " (" ++ f ++ ")") d,
          if f = "" then q else q ++ " (" ++ f ++ ")"] ∧
      (processCategory sa sb shuffle m d f q seen).final =
        (shuffle (dedupe_items sa seen ++ dedupe_items sb seen)).take m) ∧
    (m ≤ (dedupe_items sa seen).length →
      (processCategory sa sb shuffle m d f q seen).issued =
        [build_query (if f = "" then q else q ++ " (" ++ f ++ ")") d] ∧
      (processCategory sa sb shuffle m d f q seen).final =
        (shuffle (dedupe_items sa seen)).take m) := by
  refine ⟨?_, ?_, ?_⟩
  · by_cases hm : m ≤ (dedupe_items sa seen).length <;>
      simp [processCategory, hm]
  · intro h
    have hm : ¬ m ≤ (dedupe_items sa seen).length := by omega
    simp [processCategory, hm]
  · intro h
    simp [processCategory, h]

/-- Witness for claim C5's theorem: an empty first batch against cap 1
issues both variants, a full first batch issues only the first. -/
theorem category_query_variants_witness :
    ((dedupe_items [] []).length < 1 →
      (processCategory [] [⟨"t", "u", "d", "s"⟩] (fun l => l) 1 none "" "q" []).issued =
        [build_query (if ("" : String) = "" then "q" else "q" ++ " (" ++ "" ++ ")") none,
          if ("" : String) = "" then "q" else "q" ++ " (" ++ "" ++ ")"] ∧
      (processCategory [] [⟨"t", "u", "d", "s"⟩] (fun l => l) 1 none "" "q" []).final =
        ((fun (l : List SearchItem) => l) (dedupe_items [] [] ++
          dedupe_items [⟨"t", "u", "d", "s"⟩] [])).take 1) ∧
    (dedupe_items [] []).length < 1 ∧
    (processCategory [] [⟨"t", "u", "d", "s"⟩] (fun l => l) 1 none "" "q" []).issued =
      ["q", "q"] :=
  ⟨(category_query_variants [] [⟨"t", "u", "d", "s"⟩] (fun l => l) 1 none "" "q" []).2.1,
   by decide,
   ((category_query_variants [] [⟨"t", "u", "d", "s"⟩] (fun l => l) 1 none "" "q" []).2.1
     (by decide)).1⟩

/-- Claim C6: a source list whose entries parse to the domains a.com
and b.org yields exactly the clause site:a.com OR site:b.org; an empty
source list yields the empty clause; duplicates and entries without a
parseable host contribute no extra token. -/
theorem site_filter_example :
    build_site_filter ["https://a.com", "https://b.org"] = "site:a.com OR site:b.org" ∧
    build_site_filter [] = "" ∧
    build_site_filter ["a.com", "https://a.com", "https://www.a.com", "https://b.org"] =
      "site:a.com OR site:b.org" := by
  refine ⟨?_, ?_, ?_⟩ <;> decide

/-- Claim C7: an HTTP error status other than 429 makes brave_search
fail after a single urlopen call with no sleeps, whatever responses
would have followed, carrying the status code and the response body (or
the reason when the body is empty); network-class failures are instead
retried up to 3 total attempts with the 2 then 4 backoff before
becoming fatal. -/
theorem brave_search_error_handling (url body reason : String) (code : Nat)
    (hc : code ≠ 429) (rest : List (HttpResponse BravePayload))
    (e1 e2 e3 : String) (p : BravePayload) :
    brave_search url (.httpError code body reason :: rest) =
      some (.error (.upstream code url (if body = "" then reason else body)), 1, []) ∧
    brave_search url [.netError e1, .netError e2, .success p] =
      some (.ok (normalizeResults p.results), 3, [2, 4]) ∧
    brave_search url [.netError e1, .netError e2, .netError e3] =
      some (.error (.network 3 url e3), 3, [2, 4]) := by
  refine ⟨?_, ?_, ?_⟩
  · simp [brave_search, braveLoop, hc, Except.map]
  · rfl
  · rfl

/-- Witness for claim C7's theorem at status 500 with body oops. -/
theorem brave_search_error_handling_witness :
    (500 : Nat) ≠ 429 ∧
    (brave_search "U" [.httpError 500 "oops" "r"] =
        some (.error (.upstream 500 "U" (if ("oops" : String) = "" then "r" else "oops")), 1, []) ∧
      brave_search "U" [.netError "e1", .netError "e2", .success ⟨[]⟩] =
        some (.ok (normalizeResults (BravePayload.mk []).results), 3, [2, 4]) ∧
      brave_search "U" [.netError "e1", .netError "e2", .netError "e3"] =
        some (.error (.network 3 "U" "e3"), 3, [2, 4])) :=
  ⟨by decide,
   brave_search_error_handling "U" "oops" "r" 500 (by decide) [] "e1" "e2" "e3" ⟨[]⟩⟩

/-- Claim C8: after a successful HTTP response (one urlopen call; the
extraction runs outside the retry loop, so nothing is retried),
openai_summarize raises the missing-choices error when choices is
empty and the missing-content error when the first choice's content is
empty; otherwise it returns the content trimmed of surrounding
whitespace. -/
theorem summarize_missing_content (model : String) (p : OpenAIPayload)
    (rest : List (HttpResponse OpenAIPayload)) :
    (p.choices = [] →
      openai_summarize model (.success p :: rest) =
        some (.error (.missing "OpenAI response missing choices"), 1, [])) ∧
    (∀ c cs, p.choices = c :: cs → c.message.content = "" →
      openai_summarize model (.success p :: rest) =
        some (.error (.missing "OpenAI response missing content"), 1, [])) ∧
    (∀ c cs, p.choices = c :: cs → c.message.content ≠ "" →
      openai_summarize model (.success p :: rest) =
        some (.ok c.message.content.trim, 1, [])) := by
  refine ⟨?_, ?_, ?_⟩
  · intro h
    simp [openai_summarize, openaiLoop, openaiExtract, Except.bind, h]
  · intro c cs h hc
    simp [openai_summarize, openaiLoop, openaiExtract, Except.bind, h, hc]
  · intro c cs h hc
    simp [openai_summarize, openaiLoop, openaiExtract, Except.bind, h, hc]

/-- Witness for claim C8's theorem: an empty choices list raises the
missing-choices error; a padded content comes back trimmed. -/
theorem summarize_missing_content_witness :
    (OpenAIPayload.mk []).choices = [] ∧
    (OpenAIPayload.mk [⟨⟨"  hi  "⟩⟩]).choices = ⟨⟨"  hi  "⟩⟩ :: [] ∧
    (OpenAIChoice.mk ⟨"  hi  "⟩).message.content ≠ "" ∧
    openai_summarize "m" [.success ⟨[]⟩] =
      some (.error (.missing "OpenAI response missing choices"), 1, []) ∧
    openai_summarize "m" [.success ⟨[⟨⟨"  hi  "⟩⟩]⟩] =
      some (.ok (OpenAIChoice.mk ⟨"  hi  "⟩).message.content.trim, 1, []) :=
  ⟨rfl, rfl, by decide,
   (summarize_missing_content "m" ⟨[]⟩ []).1 rfl,
   (summarize_missing_content "m" ⟨[⟨⟨"  hi  "⟩⟩]⟩ []).2.2 ⟨⟨"  hi  "⟩⟩ [] rfl (by decide)⟩

/-- Claim C9: dedupe_items returns exactly the items whose url field is
nonempty and not in the seen set — the filter of its input — hence a
sublist preserving the input's relative order; and it only reads the
seen set. -/
theorem dedupe_items_filter_spec (items : List SearchItem) (seen : List String) :
    dedupe_items items seen =
      items.filter (fun it => decide (it.url ≠ "" ∧ ¬ it.url ∈ seen)) ∧
    List.Sublist (dedupe_items items seen) items ∧
    ∀ it : SearchItem, it ∈ dedupe_items items seen ↔
      it ∈ items ∧ it.url ≠ "" ∧ ¬ it.url ∈ seen :=
  ⟨dedupe_eq_filter items seen, dedupe_sublist items seen,
   fun it => mem_dedupe_iff it items seen⟩

/-- Claim C10: whenever no host can be parsed from a url string (empty
netloc — e.g. a bare domain without a scheme, or the empty string),
sanitize_domain returns the sentinel Unknown rather than an empty
string, and a source entry with such a url contributes nothing to a
site-filter clause. -/
theorem sanitize_unknown_excluded (url : String) (h : urlparseNetloc url = "") :
    sanitize_domain url = "Unknown" ∧
    ∀ pre post : List String,
      build_site_filter (pre ++ url :: post) = build_site_filter (pre ++ post) := by
  have hsan : sanitize_domain url = "Unknown" := by
    unfold sanitize_domain
    rw [h]
    decide
  refine ⟨hsan, ?_⟩
  intro pre post
  unfold build_site_filter
  rw [collectDomains_skip hsan]

/-- Witness for claim C10's theorem at the bare domain a.com, inside a
source list that also holds a valid entry. -/
theorem sanitize_unknown_excluded_witness :
    urlparseNetloc "a.com" = "" ∧
    (sanitize_domain "a.com" = "Unknown" ∧
      build_site_filter (["https://b.org"] ++ "a.com" :: []) =
        build_site_filter (["https://b.org"] ++ [])) :=
  ⟨by decide,
   ⟨(sanitize_unknown_excluded "a.com" (by decide)).1,
    (sanitize_unknown_excluded "a.com" (by decide)).2 ["https://b.org"] []⟩⟩
